import Mathlib

/-!
Verification development for the `k8s-tools` repository (Rust), focused on the
resource-requests audit pipeline: quantity normalization (`src/api.rs,
quantity_to_number`), the Cpu/Memory arithmetic wrappers, ownership resolution
(`get_pod_owner` / `extract_owner`), the usage-merge step, the anomaly filter
closure and the aggregation folds (`src/commands/resource_requests.rs`).

Modelling conventions:
- Rust `u64` is modelled as `Nat` with explicit reduction `% 2 ^ 64` wherever
  the source performs unchecked `+` or `*` (release-mode wrapping); `u64`
  `saturating_sub` is `Nat` subtraction, which is already saturating.
- Rust panics (`expect`, `assert!`) abort the process, exactly like returning
  a fatal error through `main`; they are modelled as `Except.error`.
- `char::is_numeric` is modelled on the ASCII fragment as `Char.isDigit`;
  every input exercised by the specification is ASCII.
- `BTreeMap` / `HashMap` are modelled as association lists with a
  replace-or-append `insert` and an in-place `upsert` mirroring the
  `entry(..).or_insert_with(..)` pattern; maps are always compared through
  `mapLookup`, never through their list representation, so the missing
  bucket order of `HashMap` is irrelevant.
- The Rust field `namespace` is a Lean keyword and is rendered `nspace`.
-/

deriving instance DecidableEq for Except

namespace K8sTools

/-- Largest value of a Rust `u64`. -/
def u64Max : Nat := 2 ^ 64 - 1

/-- Unchecked (release-mode wrapping) `u64` addition. -/
def u64add (a b : Nat) : Nat := (a + b) % 2 ^ 64

/-- Unchecked (release-mode wrapping) `u64` multiplication. -/
def u64mul (a b : Nat) : Nat := (a * b) % 2 ^ 64

/-- Embeds `struct Cpu(u64)` from `src/api.rs`: milli-core units. -/
structure Cpu where
  val : Nat
deriving DecidableEq

/-- Embeds `struct Memory(u64)` from `src/api.rs`: byte units. -/
structure Memory where
  val : Nat
deriving DecidableEq

/-- Embeds `impl Add<Cpu> for Cpu` (`Self(self.0 + rhs.0)`, unchecked `u64`). -/
def Cpu.add (a b : Cpu) : Cpu := ⟨u64add a.val b.val⟩

/-- Embeds `Cpu::saturating_sub`. -/
def Cpu.saturating_sub (a b : Cpu) : Cpu := ⟨a.val - b.val⟩

/-- Embeds `impl Add<Memory> for Memory` (unchecked `u64`). -/
def Memory.add (a b : Memory) : Memory := ⟨u64add a.val b.val⟩

/-- Embeds `Memory::saturating_sub`. -/
def Memory.saturating_sub (a b : Memory) : Memory := ⟨a.val - b.val⟩

/-- Parse errors of the quantity normalizer. `notANumber` covers the
`number.parse().expect("failed to parse number")` panic (empty digit run or a
run exceeding `u64::MAX`); `unknownSuffix` is the `eyre!("invalid suffix")`
error. -/
inductive QuantityError where
  | notANumber
  | unknownSuffix (s : List Char)
deriving DecidableEq

/-- Rust `char::is_numeric` restricted to ASCII inputs. -/
def isNumericChar (c : Char) : Bool := c.isDigit

/-- Embeds the accumulation loop of `quantity_to_number` (`src/api.rs`
lines 276-288). The source declares `let number_acc = true;` and never
clears it, so EVERY numeric character lands in `number` and every
non-numeric character lands in `suffix`, regardless of position. -/
def quantityAccum (input : List Char) : List Char × List Char :=
  input.foldl
    (fun acc ch =>
      if isNumericChar ch then (acc.1 ++ [ch], acc.2) else (acc.1, acc.2 ++ [ch]))
    ([], [])

/-- Decimal value of a digit string, as accumulated by `str::parse::<u64>`. -/
def digitsVal (l : List Char) : Nat :=
  l.foldl (fun n c => n * 10 + (c.toNat - 48)) 0

/-- Embeds `number.parse::<u64>().expect(..)`: fails (panics) on an empty
string or on overflow past `u64::MAX`; the characters fed to it are all
ASCII digits by construction of `quantityAccum`. -/
def parseU64 (l : List Char) : Except QuantityError Nat :=
  if l.isEmpty then .error .notANumber
  else if u64Max < digitsVal l then .error .notANumber
  else .ok (digitsVal l)

/-- Embeds `quantity_to_number` (`src/api.rs` lines 269-310). -/
def quantity_to_number (input : List Char) : Except QuantityError Nat := do
  let acc := quantityAccum input
  let number ← parseU64 acc.1
  let suffix := acc.2
  if suffix.isEmpty then
    pure (u64mul number 1000)
  else
    match suffix with
    | ['n'] => pure (number / 1000 / 1000)
    | ['m'] => pure number
    | ['k'] => pure (u64mul (u64mul number 1000) 1000)
    | ['K', 'i'] => pure (u64mul number 1024)
    | ['M', 'i'] => pure (u64mul (u64mul number 1024) 1024)
    | ['G', 'i'] => pure (u64mul (u64mul (u64mul number 1024) 1024) 1024)
    | s => .error (.unknownSuffix s)

/-- Embeds `struct ResourcePair` from `src/commands/resource_requests.rs`. -/
structure ResourcePair where
  cpu : Option Cpu
  cpu_milliseconds : Option Nat
  memory : Option Memory
  memory_bytes : Option Nat
deriving DecidableEq

/-- Embeds `ResourcePair::default()`: every field `None`. -/
def ResourcePair.default : ResourcePair := ⟨none, none, none, none⟩

/-- Embeds `impl Add<&ResourcePair> for &ResourcePair`: each field is
`self.f.zip(rhs.f).map(|(l, r)| l + r)` — the result is `Some` only when BOTH
operands are `Some`. -/
def ResourcePair.add (a b : ResourcePair) : ResourcePair where
  cpu := (a.cpu.bind fun l => b.cpu.map fun r => Cpu.add l r)
  cpu_milliseconds := (a.cpu_milliseconds.bind fun l => b.cpu_milliseconds.map fun r => u64add l r)
  memory := (a.memory.bind fun l => b.memory.map fun r => Memory.add l r)
  memory_bytes := (a.memory_bytes.bind fun l => b.memory_bytes.map fun r => u64add l r)

/-- Embeds `impl Sub<&ResourcePair> for &ResourcePair`: field-wise
`zip`-then-`saturating_sub`. -/
def ResourcePair.sub (a b : ResourcePair) : ResourcePair where
  cpu := (a.cpu.bind fun l => b.cpu.map fun r => Cpu.saturating_sub l r)
  cpu_milliseconds := (a.cpu_milliseconds.bind fun l => b.cpu_milliseconds.map fun r => l - r)
  memory := (a.memory.bind fun l => b.memory.map fun r => Memory.saturating_sub l r)
  memory_bytes := (a.memory_bytes.bind fun l => b.memory_bytes.map fun r => l - r)

/-- Embeds `struct UsageDifference`. -/
structure UsageDifference where
  requests : ResourcePair
  limits : ResourcePair
deriving DecidableEq

/-- Embeds `UsageDifference::default()`. -/
def UsageDifference.default : UsageDifference :=
  ⟨ResourcePair.default, ResourcePair.default⟩

/-- Embeds `impl Add<&UsageDifference> for &UsageDifference`. -/
def UsageDifference.add (a b : UsageDifference) : UsageDifference :=
  ⟨a.requests.add b.requests, a.limits.add b.limits⟩

/-- Embeds `struct Resources`. -/
structure Resources where
  usage : ResourcePair
  requests : ResourcePair
  limits : ResourcePair
  difference : UsageDifference
deriving DecidableEq

/-- Embeds `Resources::default()`. -/
def Resources.default : Resources :=
  ⟨ResourcePair.default, ResourcePair.default, ResourcePair.default, UsageDifference.default⟩

/-- Embeds `impl Add<&Resources> for &Resources`. -/
def Resources.add (a b : Resources) : Resources :=
  ⟨a.usage.add b.usage, a.requests.add b.requests, a.limits.add b.limits,
    a.difference.add b.difference⟩

/-- Embeds `Resources::set_cpu_usage` (`src/commands/resource_requests.rs`
lines 357-365): sets `usage.cpu` / `usage.cpu_milliseconds` and recomputes the
saturating differences. -/
def Resources.set_cpu_usage (r : Resources) (cpu_usage : Option Cpu) : Resources :=
  let usage : ResourcePair :=
    { r.usage with cpu := cpu_usage, cpu_milliseconds := cpu_usage.map Cpu.val }
  { r with
    usage := usage
    difference := ⟨r.requests.sub usage, r.limits.sub usage⟩ }

/-- Embeds `Resources::set_memory_usage` (lines 367-375). -/
def Resources.set_memory_usage (r : Resources) (memory_usage : Option Memory) : Resources :=
  let usage : ResourcePair :=
    { r.usage with memory := memory_usage, memory_bytes := memory_usage.map Memory.val }
  { r with
    usage := usage
    difference := ⟨r.requests.sub usage, r.limits.sub usage⟩ }

/-- Embeds `struct Owner` from `src/api.rs`. -/
structure Owner where
  name : String
  kind : String
deriving DecidableEq

/-- Embeds `struct PodOutput`; the Rust field `namespace` is rendered
`nspace` (Lean keyword). -/
structure PodOutput where
  pod_name : String
  container_name : String
  nspace : String
  owner : Option Owner
  resources : Resources
deriving DecidableEq

/-- Embeds the filter closure of `resource_requests`
(`src/commands/resource_requests.rs` lines 137-161). `threshold` and
`no_check_higher` are the command arguments; the three early-return paths are
transcribed directly. -/
def retainPod (threshold : Option Nat) (no_check_higher : Bool) (pod : PodOutput) : Bool :=
  let overConsumption :=
    match pod.resources.usage.cpu, pod.resources.requests.cpu with
    | some cpu_usage, some requests_cpu => rq_lt requests_cpu cpu_usage
    | _, _ => false
  if overConsumption then
    true
  else if no_check_higher = false then
    match threshold, pod.resources.usage.cpu, pod.resources.requests.cpu with
    | some t, some cpu_usage, some requests_cpu =>
        t < (requests_cpu.saturating_sub cpu_usage).val
    | _, _, _ => true
  else
    true
where
  /-- `cpu_usage > requests_cpu` on the derived `Ord` of `Cpu`. -/
  rq_lt (a b : Cpu) : Bool := a.val < b.val

/-! Association-list model of `BTreeMap` / `HashMap`, compared only through
`mapLookup`. -/

/-- Lookup in an association list (the `get` of both map types). -/
def mapLookup {α : Type} (m : List (String × α)) (k : String) : Option α :=
  match m with
  | [] => none
  | (k₀, v) :: rest => if k₀ = k then some v else mapLookup rest k

/-- Replace-or-append insertion: `BTreeMap::insert`. -/
def mapInsert {α : Type} (m : List (String × α)) (k : String) (v : α) : List (String × α) :=
  match m with
  | [] => [(k, v)]
  | (k₀, v₀) :: rest => if k₀ = k then (k, v) :: rest else (k₀, v₀) :: mapInsert rest k v

/-- The `entry(k).or_insert_with(dflt)` + mutate pattern of the aggregation
folds: apply `f` to the existing value at `k`, or to `dflt` when `k` is
absent. -/
def upsert {α : Type} (m : List (String × α)) (k : String) (dflt : α) (f : α → α) :
    List (String × α) :=
  match m with
  | [] => [(k, f dflt)]
  | (k₀, v₀) :: rest => if k₀ = k then (k, f v₀) :: rest else (k₀, v₀) :: upsert rest k dflt f

/-! Ownership resolution (`src/api.rs` lines 142-205). `get_sync` failures and
the `assert!` in `get` are process aborts; the resolver is therefore
parameterized by total fetch collaborators describing the environment in which
every issued lookup succeeds, returning the fetched object's metadata. The
source unwraps the pod's optional `metadata.namespace` with `expect` (pods
returned by the API always carry one), so the embedded metadata carries the
namespace as a plain field. -/

/-- Embeds `OwnerReference` (`{name, kind, controller}`). -/
structure OwnerReference where
  name : String
  kind : String
  controller : Option Bool
deriving DecidableEq

/-- Metadata fragment of a fetched object: its owner references. -/
structure K8sMeta where
  owner_references : Option (List OwnerReference)
deriving DecidableEq

/-- Pod metadata fragment used by the resolver. -/
structure PodMeta where
  name : String
  nspace : String
  owner_references : Option (List OwnerReference)
deriving DecidableEq

/-- Embeds `extract_owner` (`src/api.rs` lines 188-205): the fetched object's
first owner reference with `controller == true` (`controller.unwrap_or(false)`). -/
def extract_owner (object : K8sMeta) : Option OwnerReference :=
  object.owner_references.bind fun owner_references =>
    owner_references.find? fun o => o.controller.getD false

/-- Embeds `get_pod_owner` (`src/api.rs` lines 142-186), parameterized by the
two fetch collaborators (`get_sync::<ReplicaSet>` / `get_sync::<Job>`), each
taking namespace and name. -/
def get_pod_owner (fetchReplicaSet fetchJob : String → String → K8sMeta)
    (pod : PodMeta) : Option Owner :=
  (pod.owner_references.bind fun owner_references =>
    (owner_references.find? fun o => o.controller.getD false).map fun owner_reference =>
      match owner_reference.kind with
      | "ReplicaSet" =>
          (extract_owner (fetchReplicaSet pod.nspace owner_reference.name)).getD
            owner_reference
      | "Job" =>
          (extract_owner (fetchJob pod.nspace owner_reference.name)).getD owner_reference
      | _ => owner_reference).map
    fun owner_reference => Owner.mk owner_reference.name owner_reference.kind

/-! Usage merge (`src/commands/resource_requests.rs` lines 94-136). The
metrics fetch returns `Result<Option<PodMetrics>>`; an `Err` is propagated by
`?` and aborts the run, `Ok(None)` logs a warning and leaves the record
unchanged. The quantity conversions inside the merge use `expect` (process
abort), modelled as `Except.error`. -/

/-- Embeds `PodMetricsContainerUsage` (`{cpu, memory : Quantity}`); a
`Quantity` is a raw string. -/
structure PodMetricsContainerUsage where
  cpu : List Char
  memory : List Char
deriving DecidableEq

/-- Embeds `PodMetricsContainer`. -/
structure PodMetricsContainer where
  name : String
  usage : PodMetricsContainerUsage
deriving DecidableEq

/-- Embeds the part of `PodMetrics` the merge reads. -/
structure PodMetrics where
  containers : List PodMetricsContainer
deriving DecidableEq

/-- Embeds the `tops` loop (lines 94-101): one fetch per record, inserted into
a `BTreeMap` KEYED BY POD NAME ONLY (`tops.insert(pod.pod_name.clone(), top)`);
a fetch error propagates through `?`. -/
def buildTops (fetch : String → String → Except Unit (Option PodMetrics))
    (records : List PodOutput) : Except Unit (List (String × Option PodMetrics)) :=
  records.foldlM
    (fun tops pod => do
      let top ← fetch pod.nspace pod.pod_name
      pure (mapInsert tops pod.pod_name top))
    []

/-- Embeds the per-record body of the usage-merge `map` (lines 105-136):
look the record's pod name up in `tops`, and on data match containers by name;
`expect` panics (missing `tops` entry, malformed quantity) become errors. -/
def applyUsage (tops : List (String × Option PodMetrics)) (pod : PodOutput) :
    Except Unit PodOutput :=
  match mapLookup tops pod.pod_name with
  | none => .error ()
  | some none => .ok pod
  | some (some usage) =>
      let container_usage := usage.containers.find? fun c => c.name = pod.container_name
      do
        let cpu_usage ←
          match container_usage with
          | none => pure none
          | some c =>
              match quantity_to_number c.usage.cpu with
              | .ok n => pure (some (Cpu.mk n))
              | .error _ => .error ()
        let memory_usage ←
          match container_usage with
          | none => pure none
          | some c =>
              match quantity_to_number c.usage.memory with
              | .ok n => pure (some (Memory.mk n))
              | .error _ => .error ()
        pure { pod with
          resources := (pod.resources.set_cpu_usage cpu_usage).set_memory_usage memory_usage }

/-- Embeds the whole usage-merge step: build `tops`, then map every record
through `applyUsage`. -/
def mergeUsage (fetch : String → String → Except Unit (Option PodMetrics))
    (records : List PodOutput) : Except Unit (List PodOutput) := do
  let tops ← buildTops fetch records
  records.mapM (applyUsage tops)

/-! Aggregation folds (`src/commands/resource_requests.rs` lines 164-189,
207-219). Both `HashMap`s are keyed by `&pod.namespace` — including
`total_owners`, whose entry key is `&pod.namespace` even though its value
carries an `Owner`. -/

/-- Embeds `struct TotalNamespace`. -/
structure TotalNamespace where
  nspace : String
  resources : Resources
deriving DecidableEq

/-- Embeds `struct TotalOwner`. -/
structure TotalOwner where
  owner : Owner
  resources : Resources
deriving DecidableEq

/-- Embeds the `total_namespaces` fold (lines 164-175): entry at
`pod.namespace`, default `TotalNamespace { namespace, ..Default }`, then
`*entry += pod` (zip-addition of `Resources`). -/
def foldNamespaces (records : List PodOutput) : List (String × TotalNamespace) :=
  records.foldl
    (fun total pod =>
      upsert total pod.nspace
        ⟨pod.nspace, Resources.default⟩
        (fun t => ⟨t.nspace, t.resources.add pod.resources⟩))
    []

/-- Embeds the `total_owners` fold (lines 177-189): records with `owner ==
None` are skipped; the entry key is `pod.namespace` (NOT the owner), the
default value carries the current pod's owner, then `*entry += pod`. -/
def foldOwners (records : List PodOutput) : List (String × TotalOwner) :=
  records.foldl
    (fun total pod =>
      match pod.owner with
      | some owner =>
          upsert total pod.nspace
            ⟨owner, Resources.default⟩
            (fun t => ⟨t.owner, t.resources.add pod.resources⟩)
      | none => total)
    []

/-! Concrete values shared by the theorems below. -/

/-- Record with the given usage / requests cpu amounts (millicores) and
owner; all other resource fields absent, as for a freshly built record. -/
def podWithCpu (name container ns : String) (owner : Option Owner) (u r : Option Nat) :
    PodOutput where
  pod_name := name
  container_name := container
  nspace := ns
  owner := owner
  resources :=
    { usage := ⟨u.map Cpu.mk, u, none, none⟩
      requests := ⟨r.map Cpu.mk, r, none, none⟩
      limits := ResourcePair.default
      difference := UsageDifference.default }

/-- Sample record for the metrics-merge instances: usage not yet merged. -/
def samplePod : PodOutput := podWithCpu "pod1" "c1" "ns1" none none (some 100)

/-- Record in namespace `ns1` owned by Deployment `a`, requesting 100m cpu. -/
def ownedA : PodOutput :=
  podWithCpu "pod1" "c1" "ns1" (some ⟨"a", "Deployment"⟩) none (some 100)

/-- Record in namespace `ns1` owned by Deployment `b`, requesting 200m cpu. -/
def ownedB : PodOutput :=
  podWithCpu "pod2" "c1" "ns1" (some ⟨"b", "Deployment"⟩) none (some 200)

/-- Metrics object with one container `c1` whose cpu and memory usage are the
given quantity string. -/
def metricsFor (q : String) : PodMetrics := ⟨[⟨"c1", ⟨q.data, q.data⟩⟩]⟩

/-- Fetch collaborator returning different metrics for namespaces `a` and
`b` under the same pod name. -/
def leakFetch (ns : String) (_pod : String) : Option PodMetrics :=
  if ns = "a" then some (metricsFor "100m") else some (metricsFor "200m")

/-- Record of pod `p` / container `c1` in namespace `a`, usage unset. -/
def podA : PodOutput := podWithCpu "p" "c1" "a" none none (some 100)

/-- Record of pod `p` / container `c1` in namespace `b`, usage unset. -/
def podB : PodOutput := podWithCpu "p" "c1" "b" none none (some 100)

/-- Pod owned (controller) by ReplicaSet `rs1`. -/
def rsPod : PodMeta := ⟨"pod1", "ns1", some [⟨"rs1", "ReplicaSet", some true⟩]⟩

/-- Pod owned (controller) directly by DaemonSet `ds1`. -/
def dsPod : PodMeta := ⟨"pod1", "ns1", some [⟨"ds1", "DaemonSet", some true⟩]⟩

/-- Fetch collaborator whose every object has controller reference
Deployment `dep1`. -/
def rsFetchDep1 (_ns _name : String) : K8sMeta :=
  ⟨some [⟨"dep1", "Deployment", some true⟩]⟩

/-- The `tops` map produced by a run in which every fetch succeeds with
payload `f namespace name`: what the `tops` loop computes once the
`Except` layer is peeled off. -/
def topsOf (f : String → String → Option PodMetrics) (records : List PodOutput) :
    List (String × Option PodMetrics) :=
  records.foldl (fun tops pod => mapInsert tops pod.pod_name (f pod.nspace pod.pod_name)) []

/-! Helper lemmas (shared). -/

/-- Zip-addition against the all-`None` default is absorbing on pairs. -/
theorem pair_default_add_absorbs (p : ResourcePair) :
    ResourcePair.default.add p = ResourcePair.default := rfl

/-- Zip-addition against the all-`None` default is absorbing on `Resources`;
this is why every aggregate total keeps the default (empty) resources. -/
theorem resources_default_add_absorbs (r : Resources) :
    Resources.default.add r = Resources.default := rfl

/-- Lookup after a replace-or-append insert. -/
theorem mapLookup_mapInsert {α : Type} (m : List (String × α)) (k k' : String) (v : α) :
    mapLookup (mapInsert m k v) k' = if k = k' then some v else mapLookup m k' := by
  induction m with
  | nil => simp [mapInsert, mapLookup]
  | cons hd tl ih =>
      obtain ⟨k₀, v₀⟩ := hd
      simp only [mapInsert]
      by_cases h0 : k₀ = k
      · subst h0
        by_cases h1 : k₀ = k' <;> simp [mapLookup, h1]
      · rw [if_neg h0]
        by_cases h1 : k₀ = k'
        · subst h1
          have hkk : ¬ k = k₀ := fun h => h0 h.symm
          simp [mapLookup, hkk]
        · simp [mapLookup, h1, ih]

/-- Lookup after an `entry`-style upsert. -/
theorem mapLookup_upsert {α : Type} (m : List (String × α)) (k k' : String) (dflt : α)
    (f : α → α) :
    mapLookup (upsert m k dflt f) k' =
      if k = k' then
        match mapLookup m k with
        | some v => some (f v)
        | none => some (f dflt)
      else mapLookup m k' := by
  induction m with
  | nil => simp [upsert, mapLookup]
  | cons hd tl ih =>
      obtain ⟨k₀, v₀⟩ := hd
      simp only [upsert]
      by_cases h0 : k₀ = k
      · subst h0
        by_cases h1 : k₀ = k' <;> simp [mapLookup, h1]
      · rw [if_neg h0]
        by_cases h1 : k₀ = k'
        · subst h1
          have hkk : ¬ k = k₀ := fun h => h0 h.symm
          simp [mapLookup, hkk]
        · simp [mapLookup, h1, ih, h0]

/-- The accumulation loop splits the input into its numeric and non-numeric
characters, each in input order (it never stops switching between the two
sinks). -/
theorem quantityAccum_eq (l : List Char) :
    quantityAccum l = (l.filter isNumericChar, l.filter fun c => !isNumericChar c) := by
  have go : ∀ (l : List Char) (a b : List Char),
      l.foldl
        (fun acc ch =>
          if isNumericChar ch then (acc.1 ++ [ch], acc.2) else (acc.1, acc.2 ++ [ch]))
        (a, b)
      = (a ++ l.filter isNumericChar, b ++ l.filter fun c => !isNumericChar c) := by
    intro l
    induction l with
    | nil => intro a b; simp
    | cons hd tl ih =>
        intro a b
        by_cases h : isNumericChar hd <;> simp [h, ih, List.filter_cons]
  simpa [quantityAccum] using go l [] []

/-- When the input is a digit run followed by a digit-free suffix, the
accumulator recovers exactly that split. -/
theorem quantityAccum_split (ds suf : List Char)
    (hds : ∀ c ∈ ds, isNumericChar c = true)
    (hsuf : ∀ c ∈ suf, isNumericChar c = false) :
    quantityAccum (ds ++ suf) = (ds, suf) := by
  rw [quantityAccum_eq]
  have h1 : ds.filter isNumericChar = ds := List.filter_eq_self.mpr hds
  have h2 : suf.filter isNumericChar = [] :=
    List.filter_eq_nil_iff.mpr (by intro c hc; simp [hsuf c hc])
  have h3 : (ds.filter fun c => !isNumericChar c) = [] :=
    List.filter_eq_nil_iff.mpr (by intro c hc; simp [hds c hc])
  have h4 : (suf.filter fun c => !isNumericChar c) = suf :=
    List.filter_eq_self.mpr (by intro c hc; simp [hsuf c hc])
  simp [List.filter_append, h1, h2, h3, h4]

/-- Parsing a nonempty digit run below `u64::MAX` succeeds with its value. -/
theorem parseU64_digits (ds : List Char) (h1 : ds ≠ []) (h2 : digitsVal ds ≤ u64Max) :
    parseU64 ds = .ok (digitsVal ds) := by
  simp [parseU64, h1, Nat.not_lt.mpr h2]

/-- Unchecked multiplication is exact below the wrap boundary. -/
theorem u64mul_exact {a b : Nat} (h : a * b ≤ u64Max) : u64mul a b = a * b := by
  have : a * b < 2 ^ 64 := lt_of_le_of_lt h (by norm_num [u64Max])
  simpa [u64mul] using Nat.mod_eq_of_lt this

/-- Unchecked addition is exact below the wrap boundary. -/
theorem u64add_exact {a b : Nat} (h : a + b ≤ u64Max) : u64add a b = a + b := by
  have : a + b < 2 ^ 64 := lt_of_le_of_lt h (by norm_num [u64Max])
  simpa [u64add] using Nat.mod_eq_of_lt this

/-- Evaluation of the normalizer on a bare digit run (empty suffix). -/
theorem qtn_nosuffix (ds : List Char) (hds : ∀ c ∈ ds, isNumericChar c = true)
    (h1 : ds ≠ []) (h2 : digitsVal ds ≤ u64Max) :
    quantity_to_number ds = .ok (u64mul (digitsVal ds) 1000) := by
  have hsplit := quantityAccum_split ds [] hds (by simp)
  rw [quantity_to_number]
  rw [show ds ++ ([] : List Char) = ds by simp] at hsplit
  rw [hsplit]
  simp only [parseU64_digits ds h1 h2]
  rfl

/-- Evaluation of the normalizer on a digit run with suffix `n`. -/
theorem qtn_n (ds : List Char) (hds : ∀ c ∈ ds, isNumericChar c = true)
    (h1 : ds ≠ []) (h2 : digitsVal ds ≤ u64Max) :
    quantity_to_number (ds ++ ['n']) = .ok (digitsVal ds / 1000 / 1000) := by
  rw [quantity_to_number, quantityAccum_split ds ['n'] hds (by decide)]
  simp only [parseU64_digits ds h1 h2]
  rfl

/-- Evaluation of the normalizer on a digit run with suffix `m`. -/
theorem qtn_m (ds : List Char) (hds : ∀ c ∈ ds, isNumericChar c = true)
    (h1 : ds ≠ []) (h2 : digitsVal ds ≤ u64Max) :
    quantity_to_number (ds ++ ['m']) = .ok (digitsVal ds) := by
  rw [quantity_to_number, quantityAccum_split ds ['m'] hds (by decide)]
  simp only [parseU64_digits ds h1 h2]
  rfl

/-- Evaluation of the normalizer on a digit run with suffix `k`. -/
theorem qtn_k (ds : List Char) (hds : ∀ c ∈ ds, isNumericChar c = true)
    (h1 : ds ≠ []) (h2 : digitsVal ds ≤ u64Max) :
    quantity_to_number (ds ++ ['k']) =
      .ok (u64mul (u64mul (digitsVal ds) 1000) 1000) := by
  rw [quantity_to_number, quantityAccum_split ds ['k'] hds (by decide)]
  simp only [parseU64_digits ds h1 h2]
  rfl

/-- Evaluation of the normalizer on a digit run with suffix `Ki`. -/
theorem qtn_Ki (ds : List Char) (hds : ∀ c ∈ ds, isNumericChar c = true)
    (h1 : ds ≠ []) (h2 : digitsVal ds ≤ u64Max) :
    quantity_to_number (ds ++ ['K', 'i']) = .ok (u64mul (digitsVal ds) 1024) := by
  rw [quantity_to_number, quantityAccum_split ds ['K', 'i'] hds (by decide)]
  simp only [parseU64_digits ds h1 h2]
  rfl

/-- Evaluation of the normalizer on a digit run with suffix `Mi`. -/
theorem qtn_Mi (ds : List Char) (hds : ∀ c ∈ ds, isNumericChar c = true)
    (h1 : ds ≠ []) (h2 : digitsVal ds ≤ u64Max) :
    quantity_to_number (ds ++ ['M', 'i']) =
      .ok (u64mul (u64mul (digitsVal ds) 1024) 1024) := by
  rw [quantity_to_number, quantityAccum_split ds ['M', 'i'] hds (by decide)]
  simp only [parseU64_digits ds h1 h2]
  rfl

/-- Evaluation of the normalizer on a digit run with suffix `Gi`. -/
theorem qtn_Gi (ds : List Char) (hds : ∀ c ∈ ds, isNumericChar c = true)
    (h1 : ds ≠ []) (h2 : digitsVal ds ≤ u64Max) :
    quantity_to_number (ds ++ ['G', 'i']) =
      .ok (u64mul (u64mul (u64mul (digitsVal ds) 1024) 1024) 1024) := by
  rw [quantity_to_number, quantityAccum_split ds ['G', 'i'] hds (by decide)]
  simp only [parseU64_digits ds h1 h2]
  rfl

/-- When every fetch succeeds with payload `f namespace name`, the `tops`
loop returns exactly the name-keyed map `topsOf f records`. -/
theorem buildTops_ok (f : String → String → Option PodMetrics) (records : List PodOutput) :
    buildTops (fun a b => .ok (f a b)) records = .ok (topsOf f records) := by
  have go : ∀ (l : List PodOutput) (acc : List (String × Option PodMetrics)),
      (l.foldlM
        (fun tops pod => do
          let top ← (fun a b => (Except.ok (f a b) : Except Unit (Option PodMetrics)))
            pod.nspace pod.pod_name
          pure (mapInsert tops pod.pod_name top))
        acc : Except Unit (List (String × Option PodMetrics)))
      = .ok (l.foldl
          (fun tops pod => mapInsert tops pod.pod_name (f pod.nspace pod.pod_name)) acc) := by
    intro l
    induction l with
    | nil => intro acc; rfl
    | cons hd tl ih => intro acc; exact ih _
  exact go records []

/-- With an always-`ok` fetch the merge is the pure map over `topsOf`. -/
theorem mergeUsage_ok (f : String → String → Option PodMetrics) (records : List PodOutput) :
    mergeUsage (fun a b => .ok (f a b)) records =
      records.mapM (applyUsage (topsOf f records)) := by
  rw [mergeUsage, buildTops_ok]
  rfl

/-- A record whose `tops` entry carries no data passes through unchanged. -/
theorem applyUsage_none_entry (tops : List (String × Option PodMetrics)) (pod : PodOutput)
    (h : mapLookup tops pod.pod_name = some none) : applyUsage tops pod = .ok pod := by
  simp [applyUsage, h]

/-- If every fetch under key `k` returns no data, a `some none` entry at `k`
survives the rest of the `tops` fold. -/
theorem topsOf_lookup_none_pres (f : String → String → Option PodMetrics) (k : String)
    (hf : ∀ ns, f ns k = none) :
    ∀ (l : List PodOutput) (acc : List (String × Option PodMetrics)),
      mapLookup acc k = some none →
      mapLookup
        (l.foldl (fun tops pod => mapInsert tops pod.pod_name (f pod.nspace pod.pod_name)) acc)
        k = some none := by
  intro l
  induction l with
  | nil => intro acc h; simpa using h
  | cons hd tl ih =>
      intro acc h
      rw [List.foldl_cons]
      apply ih
      rw [mapLookup_mapInsert]
      by_cases hk : hd.pod_name = k
      · simp [hk, hf]
      · simp [hk, h]

/-- If some record in the fold has name `k` and every fetch under `k` returns
no data, the final `tops` entry at `k` is `some none`. -/
theorem topsOf_lookup_mem (f : String → String → Option PodMetrics) (k : String)
    (hf : ∀ ns, f ns k = none) :
    ∀ (l : List PodOutput) (acc : List (String × Option PodMetrics)) (r : PodOutput),
      r ∈ l → r.pod_name = k →
      mapLookup
        (l.foldl (fun tops pod => mapInsert tops pod.pod_name (f pod.nspace pod.pod_name)) acc)
        k = some none := by
  intro l
  induction l with
  | nil => intro acc r hr; cases hr
  | cons hd tl ih =>
      intro acc r hr hk
      rw [List.foldl_cons]
      rcases List.mem_cons.mp hr with rfl | hr'
      · apply topsOf_lookup_none_pres f k hf tl
        rw [mapLookup_mapInsert]
        simp [hk, hf]
      · exact ih _ r hr' hk

/-- Mapping a monadic function that fixes every element returns the list. -/
theorem mapM_ok_of_id (g : PodOutput → Except Unit PodOutput) :
    ∀ l : List PodOutput, (∀ r ∈ l, g r = .ok r) → l.mapM g = .ok l := by
  intro l
  induction l with
  | nil => intro; rfl
  | cons hd tl ih =>
      intro h
      rw [List.mapM_cons, h hd (by simp), ih (fun r hr => h r (by simp [hr]))]
      rfl

/-- An element fixed by the monadic map appears in a successful output. -/
theorem mapM_ok_mem (g : PodOutput → Except Unit PodOutput) :
    ∀ (l out : List PodOutput), l.mapM g = .ok out →
      ∀ r ∈ l, g r = .ok r → r ∈ out := by
  intro l
  induction l with
  | nil => intro out h r hr; cases hr
  | cons hd tl ih =>
      intro out h r hr hgr
      rw [List.mapM_cons] at h
      cases hhd : g hd with
      | error e =>
          rw [hhd] at h
          exact Except.noConfusion h
      | ok x =>
          rw [hhd] at h
          cases htl : tl.mapM g with
          | error e =>
              rw [htl] at h
              exact Except.noConfusion h
          | ok xs =>
              rw [htl] at h
              have h' : Except.ok (x :: xs) = (Except.ok out : Except Unit (List PodOutput)) := h
              have hout : x :: xs = out := by injection h'
              rcases List.mem_cons.mp hr with rfl | hr'
              · have hx : x = r := by
                  rw [hgr] at hhd
                  injection hhd with hx
                  exact hx.symm
                rw [← hout, hx]
                exact List.mem_cons_self r xs
              · rw [← hout]
                exact List.mem_cons_of_mem x (ih xs htl r hr' hgr)

/-- A record with no measured cpu usage is retained by the filter (default
retain: neither rule can evaluate). -/
theorem retainPod_of_usage_none (threshold : Option Nat) (skip : Bool) (pod : PodOutput)
    (h : pod.resources.usage.cpu = none) : retainPod threshold skip pod = true := by
  rcases threshold with _ | t <;> cases skip <;> simp [retainPod, retainPod.rq_lt, h]

/-- Characterization of the namespace-totals fold: an entry exists at `ns`
iff some record lives in `ns`, and its resources are always the all-`None`
default (zip-addition against the freshly inserted default erases every
amount). -/
theorem foldNamespaces_lookup (records : List PodOutput) (ns : String) :
    mapLookup (foldNamespaces records) ns =
      if records.any (fun r => r.nspace = ns) then some ⟨ns, Resources.default⟩
      else none := by
  have go : ∀ (l : List PodOutput) (acc : List (String × TotalNamespace)),
      (∀ v, mapLookup acc ns = some v → v = ⟨ns, Resources.default⟩) →
      mapLookup
        (l.foldl
          (fun total pod =>
            upsert total pod.nspace ⟨pod.nspace, Resources.default⟩
              (fun t => ⟨t.nspace, t.resources.add pod.resources⟩)) acc) ns =
        if (mapLookup acc ns).isSome || l.any (fun r => r.nspace = ns)
        then some ⟨ns, Resources.default⟩ else none := by
    intro l
    induction l with
    | nil =>
        intro acc hinv
        cases hacc : mapLookup acc ns with
        | none => simp [hacc]
        | some v => simp [hacc, hinv v hacc]
    | cons hd tl ih =>
        intro acc hinv
        rw [List.foldl_cons, List.any_cons]
        have hlook :
            mapLookup
              (upsert acc hd.nspace ⟨hd.nspace, Resources.default⟩
                (fun t => ⟨t.nspace, t.resources.add hd.resources⟩)) ns =
            if hd.nspace = ns then some ⟨ns, Resources.default⟩ else mapLookup acc ns := by
          rw [mapLookup_upsert]
          by_cases hns : hd.nspace = ns
          · subst hns
            cases hacc : mapLookup acc hd.nspace with
            | none => simp [hacc, resources_default_add_absorbs]
            | some v => simp [hacc, hinv v hacc, resources_default_add_absorbs]
          · simp [hns]
        have hinv' : ∀ v,
            mapLookup
              (upsert acc hd.nspace ⟨hd.nspace, Resources.default⟩
                (fun t => ⟨t.nspace, t.resources.add hd.resources⟩)) ns = some v →
            v = ⟨ns, Resources.default⟩ := by
          intro v hv
          rw [hlook] at hv
          by_cases hns : hd.nspace = ns
          · rw [if_pos hns] at hv
            injection hv with hv
            exact hv.symm
          · rw [if_neg hns] at hv
            exact hinv v hv
        rw [ih _ hinv', hlook]
        by_cases hns : hd.nspace = ns <;>
          cases hacc : mapLookup acc ns <;>
            simp [hns, hacc]
  have h := go records [] (by simp [mapLookup])
  simpa [foldNamespaces, mapLookup] using h

/-- Characterization of the owner-totals fold: an entry exists at a key `ns`
iff some OWNED record lives in namespace `ns` (the map is keyed by namespace,
not by owner), and every entry's resources are the all-`None` default. -/
theorem foldOwners_lookup_shape (records : List PodOutput) (ns : String) :
    ((mapLookup (foldOwners records) ns).isSome =
        records.any fun r => r.owner.isSome && decide (r.nspace = ns))
    ∧ ∀ v, mapLookup (foldOwners records) ns = some v →
        v.resources = Resources.default := by
  have go : ∀ (l : List PodOutput) (acc : List (String × TotalOwner)),
      (∀ v, mapLookup acc ns = some v → v.resources = Resources.default) →
      ((mapLookup
          (l.foldl
            (fun total pod =>
              match pod.owner with
              | some owner =>
                  upsert total pod.nspace ⟨owner, Resources.default⟩
                    (fun t => ⟨t.owner, t.resources.add pod.resources⟩)
              | none => total) acc) ns).isSome =
        ((mapLookup acc ns).isSome ||
          l.any fun r => r.owner.isSome && decide (r.nspace = ns)))
      ∧ ∀ v, mapLookup
          (l.foldl
            (fun total pod =>
              match pod.owner with
              | some owner =>
                  upsert total pod.nspace ⟨owner, Resources.default⟩
                    (fun t => ⟨t.owner, t.resources.add pod.resources⟩)
              | none => total) acc) ns = some v →
          v.resources = Resources.default := by
    intro l
    induction l with
    | nil =>
        intro acc hinv
        exact ⟨by simp, hinv⟩
    | cons hd tl ih =>
        intro acc hinv
        rw [List.foldl_cons, List.any_cons]
        cases ho : hd.owner with
        | none =>
            have := ih acc hinv
            simp only [ho]
            rw [this.1]
            refine ⟨by simp [ho], this.2⟩
        | some o =>
            have hlook :
                mapLookup
                  (upsert acc hd.nspace ⟨o, Resources.default⟩
                    (fun t => ⟨t.owner, t.resources.add hd.resources⟩)) ns =
                if hd.nspace = ns then
                  match mapLookup acc ns with
                  | some v => some ⟨v.owner, v.resources.add hd.resources⟩
                  | none => some ⟨o, Resources.default.add hd.resources⟩
                else mapLookup acc ns := by
              rw [mapLookup_upsert]
              by_cases hns : hd.nspace = ns
              · subst hns
                cases hacc : mapLookup acc hd.nspace with
                | none => simp [hacc]
                | some v => simp [hacc]
              · simp [hns]
            have hinv' : ∀ v,
                mapLookup
                  (upsert acc hd.nspace ⟨o, Resources.default⟩
                    (fun t => ⟨t.owner, t.resources.add hd.resources⟩)) ns = some v →
                v.resources = Resources.default := by
              intro v hv
              rw [hlook] at hv
              by_cases hns : hd.nspace = ns
              · rw [if_pos hns] at hv
                cases hacc : mapLookup acc ns with
                | none =>
                    rw [hacc] at hv
                    injection hv with hv
                    rw [← hv]
                    simp [resources_default_add_absorbs]
                | some w =>
                    rw [hacc] at hv
                    injection hv with hv
                    rw [← hv]
                    simp [hinv w hacc, resources_default_add_absorbs]
              · rw [if_neg hns] at hv
                exact hinv v hv
            have hsome :
                (mapLookup
                  (upsert acc hd.nspace ⟨o, Resources.default⟩
                    (fun t => ⟨t.owner, t.resources.add hd.resources⟩)) ns).isSome =
                ((mapLookup acc ns).isSome || decide (hd.nspace = ns)) := by
              rw [hlook]
              by_cases hns : hd.nspace = ns
              · cases hacc : mapLookup acc ns <;> simp [hns, hacc]
              · simp [hns]
            have := ih _ hinv'
            simp only [ho]
            rw [this.1, hsome]
            refine ⟨?_, this.2⟩
            by_cases hns : hd.nspace = ns <;>
              cases hacc : (mapLookup acc ns).isSome <;>
                simp [ho, hns, hacc]
  have h := go records []
  have h1 := h (by simp [mapLookup])
  constructor
  · have := h1.1
    simpa [foldOwners, mapLookup] using this
  · have := h1.2
    simpa [foldOwners] using this

/-! Theorems for the claims. -/

/-- C1 counterexample: the claimed coalescing identity
`add(Some(3), None) = Some(3)` fails on the code: `ResourcePair` addition
zips, so adding an all-`None` pair erases the `Some(3)`. -/
theorem c1_coalescing_add_counterexample :
    (ResourcePair.add ⟨some ⟨3⟩, some 3, none, none⟩ ResourcePair.default).cpu = none ∧
      (ResourcePair.add ⟨some ⟨3⟩, some 3, none, none⟩ ResourcePair.default).cpu ≠
        some ⟨3⟩ := by
  constructor
  · rfl
  · decide

/-- C1 amended: field-wise addition of optional amounts satisfies
`Some(a) + Some(b) = Some(a + b)`, but when EITHER operand is `None` the
result is `None` (not the other operand); in particular
`add(Some(3), None) = None`. -/
theorem c1_zip_add :
    (∀ (a b : Cpu) (p q : ResourcePair),
      p.cpu = some a → q.cpu = some b → (p.add q).cpu = some (a.add b))
    ∧ (∀ p q : ResourcePair, p.cpu = none ∨ q.cpu = none → (p.add q).cpu = none)
    ∧ (∀ (a b : Memory) (p q : ResourcePair),
      p.memory = some a → q.memory = some b → (p.add q).memory = some (a.add b))
    ∧ (∀ p q : ResourcePair, p.memory = none ∨ q.memory = none → (p.add q).memory = none)
    ∧ (ResourcePair.add ⟨some ⟨3⟩, some 3, none, none⟩ ResourcePair.default).cpu = none := by
  refine ⟨?_, ?_, ?_, ?_, rfl⟩
  · intro a b p q hp hq; simp [ResourcePair.add, hp, hq]
  · rintro p q (hp | hq)
    · simp [ResourcePair.add, hp]
    · simp [ResourcePair.add, hq]
  · intro a b p q hp hq; simp [ResourcePair.add, hp, hq]
  · rintro p q (hp | hq)
    · simp [ResourcePair.add, hp]
    · simp [ResourcePair.add, hq]

/-- C1 witness: `Some(3) + Some(4) = Some(7)` on the cpu field. -/
theorem c1_zip_add_witness :
    (ResourcePair.add ⟨some ⟨3⟩, some 3, none, none⟩ ⟨some ⟨4⟩, some 4, none, none⟩).cpu =
      some ⟨7⟩ := by
  have h := c1_zip_add.1 ⟨3⟩ ⟨4⟩ ⟨some ⟨3⟩, some 3, none, none⟩
    ⟨some ⟨4⟩, some 4, none, none⟩ rfl rfl
  rw [h]; decide

/-- C4: the anomaly filter retains a record iff (a) usage and requests cpu
both present with usage above requests, or (b) skip flag false, threshold
configured, both present, and the saturating difference above the threshold,
or (c) data missing, no threshold, or skip set; equivalently a record is
dropped exactly when all data is present, skip is false, and both (a) and (b)
are false. -/
theorem c4_anomaly_filter (threshold : Option Nat) (skip : Bool) (pod : PodOutput) :
    (retainPod threshold skip pod = true ↔
      ((∃ cu rq : Cpu, pod.resources.usage.cpu = some cu ∧
          pod.resources.requests.cpu = some rq ∧ rq.val < cu.val)
        ∨ (skip = false ∧ ∃ (t : Nat) (cu rq : Cpu), threshold = some t ∧
            pod.resources.usage.cpu = some cu ∧ pod.resources.requests.cpu = some rq ∧
            t < rq.val - cu.val)
        ∨ (pod.resources.usage.cpu = none ∨ pod.resources.requests.cpu = none ∨
            threshold = none ∨ skip = true)))
    ∧ (retainPod threshold skip pod = false ↔
      ∃ (t : Nat) (cu rq : Cpu), threshold = some t ∧ skip = false ∧
        pod.resources.usage.cpu = some cu ∧ pod.resources.requests.cpu = some rq ∧
        ¬ rq.val < cu.val ∧ ¬ t < rq.val - cu.val) := by
  rcases hu : pod.resources.usage.cpu with _ | cu <;>
    rcases hr : pod.resources.requests.cpu with _ | rq <;>
      rcases threshold with _ | t <;>
        cases skip <;>
          simp [retainPod, retainPod.rq_lt, hu, hr, Cpu.saturating_sub] <;>
            omega

/-- C5: contrary to the claim, the digit/suffix accumulator never switches
modes (`number_acc` is declared `true` and never cleared), so `"1k2"` is split
into digits `"12"` and suffix `"k"` and parses successfully to `12_000_000`
instead of failing with an unknown-suffix error. -/
theorem c5_digit_switch_bug :
    quantityAccum "1k2".data = ("12".data, "k".data)
    ∧ quantity_to_number "1k2".data = .ok 12000000
    ∧ quantity_to_number "1k2".data ≠ .error (.unknownSuffix "k2".data) := by
  refine ⟨by decide, by decide, by decide⟩

/-- C6: the normalizer maps each digit/suffix split per the table: empty
suffix multiplies by 1000; `n` divides by 1_000_000 truncating; `m` is the
identity; `k` multiplies by 1_000_000; `Ki`, `Mi`, `Gi` multiply by the
binary scales; an empty digit run is a `NotANumber` error and an unknown
suffix an `UnknownSuffix` error, with the specified concrete instances. -/
theorem c6_quantity_table :
    (∀ ds : List Char, ds ≠ [] → (∀ c ∈ ds, isNumericChar c = true) →
      digitsVal ds * 1073741824 ≤ u64Max →
        quantity_to_number ds = .ok (digitsVal ds * 1000)
        ∧ quantity_to_number (ds ++ ['n']) = .ok (digitsVal ds / 1000000)
        ∧ quantity_to_number (ds ++ ['m']) = .ok (digitsVal ds)
        ∧ quantity_to_number (ds ++ ['k']) = .ok (digitsVal ds * 1000000)
        ∧ quantity_to_number (ds ++ ['K', 'i']) = .ok (digitsVal ds * 1024)
        ∧ quantity_to_number (ds ++ ['M', 'i']) = .ok (digitsVal ds * 1048576)
        ∧ quantity_to_number (ds ++ ['G', 'i']) = .ok (digitsVal ds * 1073741824))
    ∧ quantity_to_number [] = .error .notANumber
    ∧ quantity_to_number "Qi".data = .error .notANumber
    ∧ quantity_to_number "1500m".data = .ok 1500
    ∧ quantity_to_number "1k".data = .ok 1000000
    ∧ quantity_to_number "1".data = .ok 1000
    ∧ quantity_to_number "1Ki".data = .ok 1024
    ∧ quantity_to_number "1n".data = .ok 0
    ∧ quantity_to_number "1Qi".data = .error (.unknownSuffix ['Q', 'i']) := by
  refine ⟨?_, by decide, by decide, by decide, by decide, by decide, by decide, by decide,
    by decide⟩
  intro ds h1 hds hbound
  have hscale : ∀ m : Nat, m ≤ 1073741824 → digitsVal ds * m ≤ u64Max := by
    intro m hm
    exact le_trans (Nat.mul_le_mul_left _ hm) hbound
  have hn : digitsVal ds ≤ u64Max := by
    have := hscale 1 (by norm_num)
    simpa using this
  have e1000 : u64mul (digitsVal ds) 1000 = digitsVal ds * 1000 :=
    u64mul_exact (hscale 1000 (by norm_num))
  have e1024 : u64mul (digitsVal ds) 1024 = digitsVal ds * 1024 :=
    u64mul_exact (hscale 1024 (by norm_num))
  have ek : u64mul (digitsVal ds * 1000) 1000 = digitsVal ds * 1000000 := by
    rw [u64mul_exact (by have := hscale 1000000 (by norm_num); omega)]
    omega
  have eMi : u64mul (digitsVal ds * 1024) 1024 = digitsVal ds * 1048576 := by
    rw [u64mul_exact (by have := hscale 1048576 (by norm_num); omega)]
    omega
  have eGi : u64mul (digitsVal ds * 1048576) 1024 = digitsVal ds * 1073741824 := by
    rw [u64mul_exact (by have := hbound; omega)]
    omega
  refine ⟨?_, ?_, ?_, ?_, ?_, ?_, ?_⟩
  · rw [qtn_nosuffix ds hds h1 hn, e1000]
  · rw [qtn_n ds hds h1 hn]
    norm_num [Nat.div_div_eq_div_mul]
  · exact qtn_m ds hds h1 hn
  · rw [qtn_k ds hds h1 hn, e1000, ek]
  · rw [qtn_Ki ds hds h1 hn, e1024]
  · rw [qtn_Mi ds hds h1 hn, e1024, eMi]
  · rw [qtn_Gi ds hds h1 hn, e1024, eMi, eGi]

/-- C6 witness: the table applied to the digit run `"1"` with suffix `Ki`. -/
theorem c6_quantity_table_witness :
    quantity_to_number ("1".data ++ ['K', 'i']) = .ok 1024 := by
  have h :=
    (c6_quantity_table.1 "1".data (by decide) (by decide) (by decide)).2.2.2.2.1
  rw [h]
  decide

/-- C7: ownership resolution picks the first owner reference with
`controller == true` (none found means no owner); kind `ReplicaSet` or `Job`
makes exactly one further hop through the fetched object's controller
reference, falling back to the one-hop reference when the fetched object has
none; any other kind returns the one-hop reference; with the two concrete
scenarios (ReplicaSet hop ending at a Deployment; direct DaemonSet). -/
theorem c7_owner_resolution :
    (∀ (fRS fJob : String → String → K8sMeta) (pod : PodMeta),
      (pod.owner_references = none → get_pod_owner fRS fJob pod = none)
      ∧ (∀ ors, pod.owner_references = some ors →
          (ors.find? (fun o => o.controller.getD false) = none →
            get_pod_owner fRS fJob pod = none)
          ∧ (∀ oref, ors.find? (fun o => o.controller.getD false) = some oref →
              (oref.kind ≠ "ReplicaSet" → oref.kind ≠ "Job" →
                get_pod_owner fRS fJob pod = some ⟨oref.name, oref.kind⟩)
              ∧ (oref.kind = "ReplicaSet" →
                  (∀ oref2, extract_owner (fRS pod.nspace oref.name) = some oref2 →
                    get_pod_owner fRS fJob pod = some ⟨oref2.name, oref2.kind⟩)
                  ∧ (extract_owner (fRS pod.nspace oref.name) = none →
                    get_pod_owner fRS fJob pod = some ⟨oref.name, oref.kind⟩))
              ∧ (oref.kind = "Job" →
                  (∀ oref2, extract_owner (fJob pod.nspace oref.name) = some oref2 →
                    get_pod_owner fRS fJob pod = some ⟨oref2.name, oref2.kind⟩)
                  ∧ (extract_owner (fJob pod.nspace oref.name) = none →
                    get_pod_owner fRS fJob pod = some ⟨oref.name, oref.kind⟩)))))
    ∧ (∀ fJob, get_pod_owner rsFetchDep1 fJob rsPod = some ⟨"dep1", "Deployment"⟩)
    ∧ (∀ fRS fJob, get_pod_owner fRS fJob dsPod = some ⟨"ds1", "DaemonSet"⟩) := by
  refine ⟨?_, fun fJob => rfl, fun fRS fJob => rfl⟩
  intro fRS fJob pod
  constructor
  · intro h
    simp [get_pod_owner, h]
  · intro ors hors
    constructor
    · intro hfind
      simp [get_pod_owner, hors, hfind]
    · intro oref hfind
      refine ⟨?_, ?_, ?_⟩
      · intro h1 h2
        simp only [get_pod_owner, hors, Option.some_bind, hfind, Option.map_some']
      · intro hk
        constructor
        · intro oref2 hext
          simp [get_pod_owner, hors, hfind, hk, hext]
        · intro hext
          simp [get_pod_owner, hors, hfind, hk, hext]
      · intro hk
        by_cases hrs : oref.kind = "ReplicaSet"
        · rw [hk] at hrs
          exact absurd hrs (by decide)
        constructor
        · intro oref2 hext
          simp [get_pod_owner, hors, hfind, hk, hext]
        · intro hext
          simp [get_pod_owner, hors, hfind, hk, hext]

/-- C7 witness: the ReplicaSet-to-Deployment hop via the general algorithm. -/
theorem c7_owner_resolution_witness :
    get_pod_owner rsFetchDep1 rsFetchDep1 rsPod = some ⟨"dep1", "Deployment"⟩ := by
  have h := ((c7_owner_resolution.1 rsFetchDep1 rsFetchDep1 rsPod).2 _ rfl).2
    ⟨"rs1", "ReplicaSet", some true⟩ rfl
  exact (h.2.1 rfl).1 ⟨"dep1", "Deployment", some true⟩ rfl

/-- C10: `Cpu` / `Memory` addition and the suffix scalings are unchecked
`u64` operations: exact whenever the mathematical result fits in `u64`, and
there are operands (a sum crossing `2^64 - 1`; a digit run near `2^64` with
suffix `Gi`) whose exact result exceeds `2^64 - 1` and is not produced. -/
theorem c10_unchecked_arithmetic :
    (∀ a b : Cpu, a.val + b.val ≤ u64Max → (a.add b).val = a.val + b.val)
    ∧ (∀ a b : Memory, a.val + b.val ≤ u64Max → (a.add b).val = a.val + b.val)
    ∧ (∃ a b : Cpu, a.val ≤ u64Max ∧ b.val ≤ u64Max ∧ u64Max < a.val + b.val ∧
        (a.add b).val ≠ a.val + b.val)
    ∧ (∀ n : Nat, n * 1073741824 ≤ u64Max →
        u64mul (u64mul (u64mul n 1024) 1024) 1024 = n * 1073741824)
    ∧ (∃ ds : List Char, (∀ c ∈ ds, isNumericChar c = true) ∧
        digitsVal ds ≤ u64Max ∧ u64Max < digitsVal ds * 1073741824 ∧
        quantity_to_number (ds ++ ['G', 'i']) ≠ .ok (digitsVal ds * 1073741824)) := by
  refine ⟨?_, ?_, ?_, ?_, ?_⟩
  · intro a b h
    simp [Cpu.add, u64add_exact h]
  · intro a b h
    simp [Memory.add, u64add_exact h]
  · exact ⟨⟨u64Max⟩, ⟨1⟩, by decide, by decide, by decide, by decide⟩
  · intro n hbound
    have hscale : ∀ m : Nat, m ≤ 1073741824 → n * m ≤ u64Max := by
      intro m hm
      exact le_trans (Nat.mul_le_mul_left _ hm) hbound
    have e1 : u64mul n 1024 = n * 1024 := u64mul_exact (hscale 1024 (by norm_num))
    have e2 : u64mul (n * 1024) 1024 = n * 1048576 := by
      rw [u64mul_exact (by have := hscale 1048576 (by norm_num); omega)]
      omega
    have e3 : u64mul (n * 1048576) 1024 = n * 1073741824 := by
      rw [u64mul_exact (by have := hbound; omega)]
      omega
    rw [e1, e2, e3]
  · exact ⟨"17179869184".data, by decide, by decide, by decide, by decide⟩

/-- C3 counterexample: a FAILED metrics fetch (an `Err`, as opposed to a
fetch that succeeds with no data) is propagated by `?` and aborts the whole
run: the record does not remain in any output, contradicting the claim that
a fetch failure is local and recoverable. -/
theorem c3_metrics_failure_counterexample :
    mergeUsage (fun _ _ => .error ()) [samplePod] = .error ()
    ∧ ¬ ∃ l : List PodOutput, mergeUsage (fun _ _ => .error ()) [samplePod] = .ok l := by
  refine ⟨rfl, ?_⟩
  rintro ⟨l, hl⟩
  rw [show mergeUsage (fun _ _ => (.error () : Except Unit (Option PodMetrics)))
      [samplePod] = .error () from rfl] at hl
  exact Except.noConfusion hl

/-- C3 amended: only a metrics lookup that SUCCEEDS WITH NO DATA is local and
recoverable: the affected pod's records stay in the merge output unchanged
(usage still none) and pass the anomaly filter by default-retain; a run all
of whose lookups return no data completes with every record untouched. (A
lookup returning an error aborts the run; see the counterexample.) -/
theorem c3_no_data_is_local :
    (∀ (f : String → String → Option PodMetrics) (records l : List PodOutput)
        (r : PodOutput) (threshold : Option Nat) (skip : Bool),
      mergeUsage (fun a b => .ok (f a b)) records = .ok l →
      r ∈ records →
      (∀ ns, f ns r.pod_name = none) →
      r ∈ l ∧ (r.resources.usage.cpu = none → retainPod threshold skip r = true))
    ∧ (∀ records : List PodOutput,
        mergeUsage (fun _ _ => .ok none) records = .ok records) := by
  constructor
  · intro f records l r threshold skip hm hr hf
    have htops : mapLookup (topsOf f records) r.pod_name = some none :=
      topsOf_lookup_mem f r.pod_name hf records [] r hr rfl
    have ha : applyUsage (topsOf f records) r = .ok r := applyUsage_none_entry _ _ htops
    rw [mergeUsage_ok] at hm
    exact ⟨mapM_ok_mem _ records l hm r hr ha,
      fun hc => retainPod_of_usage_none threshold skip r hc⟩
  · intro records
    rw [mergeUsage_ok]
    apply mapM_ok_of_id
    intro r hr
    exact applyUsage_none_entry _ _
      (topsOf_lookup_mem (fun _ _ => none) r.pod_name (fun _ => rfl) records [] r hr rfl)

/-- C3 witness: a single record whose metrics lookup returns no data stays in
the output and is retained by the filter. -/
theorem c3_no_data_is_local_witness :
    samplePod ∈ [samplePod] ∧ retainPod (some 50) false samplePod = true := by
  have h := c3_no_data_is_local.1 (fun _ _ => none) [samplePod] [samplePod] samplePod
    (some 50) false (c3_no_data_is_local.2 [samplePod]) (by simp) (fun _ => rfl)
  exact ⟨h.1, h.2 rfl⟩

/-- C9: the `tops` map is keyed by pod name alone: for two records sharing a
pod name the second fetch overwrites the first, and in the concrete run with
pods named `p` in namespaces `a` and `b` (whose true metrics are 100m and
200m respectively) BOTH records come out of the merge with cpu usage 200m —
namespace `a`'s pod receives namespace `b`'s measured usage. -/
theorem c9_usage_keyed_by_pod_name :
    (∀ (f : String → String → Option PodMetrics) (r1 r2 : PodOutput),
      r1.pod_name = r2.pod_name →
      buildTops (fun a b => .ok (f a b)) [r1, r2] =
        .ok [(r2.pod_name, f r2.nspace r2.pod_name)])
    ∧ ((mergeUsage (fun a b => .ok (leakFetch a b)) [podA, podB]).map
        (fun l => l.map fun p => p.resources.usage.cpu) = .ok [some ⟨200⟩, some ⟨200⟩])
    ∧ quantity_to_number "100m".data = .ok 100 := by
  refine ⟨?_, by decide, by decide⟩
  intro f r1 r2 h
  rw [buildTops_ok]
  simp [topsOf, mapInsert, h]

/-- C9 witness: both sample records map to the single name-keyed entry,
holding the metrics fetched for namespace `b`. -/
theorem c9_usage_keyed_by_pod_name_witness :
    buildTops (fun a b => .ok (leakFetch a b)) [podA, podB] =
      .ok [("p", some (metricsFor "200m"))] := by
  have h := c9_usage_keyed_by_pod_name.1 leakFetch podA podB rfl
  rw [h]
  decide

/-- C2: contrary to the claim, the owner-totals fold keys its entries by the
record's NAMESPACE, not by the resolved owner, and (because zip-addition
against the freshly inserted all-`None` default erases every amount) each
entry's resources stay the empty default instead of the coalescing sum: two
owned records in one namespace requesting 100m and 200m collapse to a single
entry under their namespace, attributed to the first record's owner, with no
summed amounts; only the exclusion of ownerless records matches the claim. -/
theorem c2_owner_totals_bug :
    foldOwners [ownedA, ownedB] =
      [("ns1", ⟨⟨"a", "Deployment"⟩, Resources.default⟩)]
    ∧ mapLookup (foldOwners [ownedA, ownedB]) "a" = none
    ∧ mapLookup (foldOwners [ownedA, ownedB]) "b" = none
    ∧ ownedA.resources.requests.cpu = some ⟨100⟩
    ∧ ownedB.resources.requests.cpu = some ⟨200⟩
    ∧ foldOwners [podWithCpu "p" "c" "ns1" none none (some 100)] = [] := by
  refine ⟨by decide, by decide, by decide, by decide, by decide, by decide⟩

/-- C8 counterexample: permuting the record set changes the owner totals:
with two records of distinct owners in one namespace, the single
namespace-keyed entry is attributed to whichever owner is folded first. -/
theorem c8_order_dependence_counterexample :
    mapLookup (foldOwners [ownedA, ownedB]) "ns1" ≠
      mapLookup (foldOwners [ownedB, ownedA]) "ns1" := by decide

/-- C8 amended: under any permutation of the record set the namespace totals
agree (as maps), and the owner totals have the same keys and the same
resource sums (trivially, since every total's resources are the all-`None`
default); but the OWNER attributed to an owner-total entry is the
first-encountered one and is NOT permutation-invariant (see the
counterexample). In the program the fold order is fixed by the sorted record
set, so a single run is deterministic. -/
theorem c8_aggregation_fold_order (l1 l2 : List PodOutput) (h : l1.Perm l2) :
    (∀ ns, mapLookup (foldNamespaces l1) ns = mapLookup (foldNamespaces l2) ns)
    ∧ (∀ ns, (mapLookup (foldOwners l1) ns).isSome =
        (mapLookup (foldOwners l2) ns).isSome)
    ∧ (∀ ns t1 t2, mapLookup (foldOwners l1) ns = some t1 →
        mapLookup (foldOwners l2) ns = some t2 → t1.resources = t2.resources) := by
  have hany : ∀ p : PodOutput → Bool, l1.any p = l2.any p := by
    intro p
    rw [Bool.eq_iff_iff, List.any_eq_true, List.any_eq_true]
    constructor
    · rintro ⟨x, hx, hp⟩
      exact ⟨x, h.mem_iff.mp hx, hp⟩
    · rintro ⟨x, hx, hp⟩
      exact ⟨x, h.mem_iff.mpr hx, hp⟩
  refine ⟨?_, ?_, ?_⟩
  · intro ns
    rw [foldNamespaces_lookup, foldNamespaces_lookup, hany]
  · intro ns
    rw [(foldOwners_lookup_shape l1 ns).1, (foldOwners_lookup_shape l2 ns).1, hany]
  · intro ns t1 t2 h1 h2
    rw [(foldOwners_lookup_shape l1 ns).2 t1 h1, (foldOwners_lookup_shape l2 ns).2 t2 h2]

/-- C8 witness: the two orders of the sample records give equal namespace
totals at their namespace. -/
theorem c8_aggregation_fold_order_witness :
    mapLookup (foldNamespaces [ownedA, ownedB]) "ns1" =
      mapLookup (foldNamespaces [ownedB, ownedA]) "ns1" :=
  (c8_aggregation_fold_order [ownedA, ownedB] [ownedB, ownedA]
    (List.Perm.swap ownedB ownedA [])).1 "ns1"

/-- C10 witness: exact addition of 2m and 3m cpu, and the `Gi` scaling of 1. -/
theorem c10_unchecked_arithmetic_witness :
    (Cpu.add ⟨2⟩ ⟨3⟩).val = 2 + 3 ∧
      u64mul (u64mul (u64mul 1 1024) 1024) 1024 = 1 * 1073741824 := by
  exact ⟨c10_unchecked_arithmetic.1 ⟨2⟩ ⟨3⟩ (by decide),
    c10_unchecked_arithmetic.2.2.2.1 1 (by decide)⟩

end K8sTools
